import Mathlib

/-!
Shallow embedding of the SpotShare parking-space search core
(`parkingSpace.controller.js`): the schedule normalizer
`transformCustomTimes` and the nearby-search endpoint
`findNearbyParkingSpaces`.

Modelling conventions:
* Timestamps are minutes since the Unix epoch (`Timestamp := Nat`).  The
  JavaScript code only ever inspects a timestamp through its local weekday
  name (`toLocaleString` with `weekday: 'long'`) and its `HH:MM` time of day
  (`toTimeString().slice(0, 5)`), both at minute granularity, so minutes
  since the epoch with the runtime's local zone fixed to UTC captures every
  observation the code makes.  January 1 1970 (day number 0) is a Thursday.
* Clock times stored in an `AvailabilitySlot` are minutes since midnight,
  the value of the well-formed `"HH:MM"` strings the code pipes through
  `new Date("1970-01-01T" ++ t ++ ":00")` before comparing.
* JavaScript numbers are modelled by `JSNum`: `nan`, the two infinities, or
  an exact rational.  Floating-point rounding is not modelled; none of the
  properties below depend on it.  `jsToNumber` follows the ECMAScript
  string-to-number coercion (whitespace trimming, empty string to `0`,
  signed decimal with optional fraction/exponent, `Infinity`, and the
  unsigned hex/octal/binary forms); `isNaN(x)` on a string is
  `jsIsNaN (jsToNumber x)`.
* The Mongo store and the JavaScript `Date` parser are external
  collaborators and appear as parameters (`geoWithin`, `parseDate`):
  see `storeFind` below.
-/

namespace SpotShare

/-- A JavaScript number as observed by this code: NaN, an infinity, or an
exact rational value. -/
inductive JSNum where
  | nan
  | posInf
  | negInf
  | num (value : ℚ)
deriving DecidableEq

/-- The `isNaN` primitive on an already-coerced number. -/
def jsIsNaN : JSNum → Bool
  | .nan => true
  | _ => false

/-- Trim leading and trailing whitespace, as `ToNumber` does before
parsing a string. -/
def jsTrim (l : List Char) : List Char :=
  ((l.dropWhile Char.isWhitespace).reverse.dropWhile Char.isWhitespace).reverse

/-- Decimal digit string to natural number. -/
def digitsToNat (l : List Char) : Nat :=
  l.foldl (fun a c => a * 10 + (c.toNat - 48)) 0

/-- Digit value for radix parsing (decimal, hex upper and lower case). -/
def hexDigitVal (c : Char) : Nat :=
  if c.isDigit then c.toNat - 48
  else if 'a' ≤ c && c ≤ 'f' then c.toNat - 87
  else c.toNat - 55

def isHexDigit (c : Char) : Bool :=
  c.isDigit || ('a' ≤ c && c ≤ 'f') || ('A' ≤ c && c ≤ 'F')

def isOctDigit (c : Char) : Bool := '0' ≤ c && c ≤ '7'

def isBinDigit (c : Char) : Bool := c = '0' || c = '1'

/-- Value of a digit string in the given radix. -/
def radixVal (radix : Nat) (l : List Char) : Nat :=
  l.foldl (fun a c => a * radix + hexDigitVal c) 0

/-- Parse an unsigned ECMAScript `StrUnsignedDecimalLiteral`
(`digits [. digits] [exponent]` or `. digits [exponent]`); `none` means the
string is not numeric (NaN). -/
def parseUnsignedDec (l : List Char) : Option ℚ :=
  let ip := l.takeWhile Char.isDigit
  let r1 := l.dropWhile Char.isDigit
  let fp := match r1 with
    | '.' :: r => r.takeWhile Char.isDigit
    | _ => []
  let r2 := match r1 with
    | '.' :: r => r.dropWhile Char.isDigit
    | _ => r1
  if ip = [] ∧ fp = [] then none
  else
    let mant : ℚ := (digitsToNat ip : ℚ) + (digitsToNat fp : ℚ) / (10 : ℚ) ^ fp.length
    match r2 with
    | [] => some mant
    | e :: r =>
      if e = 'e' ∨ e = 'E' then
        let eneg := match r with
          | '-' :: _ => true
          | _ => false
        let d := match r with
          | '+' :: d => d
          | '-' :: d => d
          | d => d
        if d ≠ [] ∧ d.all Char.isDigit then
          some (if eneg then mant / (10 : ℚ) ^ digitsToNat d
                else mant * (10 : ℚ) ^ digitsToNat d)
        else none
      else none

/-- Signed decimal or `Infinity` part of the string-to-number coercion. -/
def jsSignedDec (l : List Char) : JSNum :=
  let neg := match l with
    | '-' :: _ => true
    | _ => false
  let r := match l with
    | '+' :: r => r
    | '-' :: r => r
    | r => r
  if r = ['I', 'n', 'f', 'i', 'n', 'i', 't', 'y'] then
    if neg then .negInf else .posInf
  else
    match parseUnsignedDec r with
    | some q => .num (if neg then -q else q)
    | none => .nan

/-- ECMAScript `ToNumber` on an already-trimmed character list. -/
def jsStrToNumber (l : List Char) : JSNum :=
  match l with
  | [] => .num 0
  | '0' :: x :: r =>
    if x = 'x' ∨ x = 'X' then
      if r ≠ [] ∧ r.all isHexDigit then .num (radixVal 16 r) else .nan
    else if x = 'o' ∨ x = 'O' then
      if r ≠ [] ∧ r.all isOctDigit then .num (radixVal 8 r) else .nan
    else if x = 'b' ∨ x = 'B' then
      if r ≠ [] ∧ r.all isBinDigit then .num (radixVal 2 r) else .nan
    else jsSignedDec ('0' :: x :: r)
  | l => jsSignedDec l

/-- ECMAScript `ToNumber` on a string, as used by `isNaN(lat)` and by the
numeric interpretation of the coordinate components. -/
def jsToNumber (s : String) : JSNum :=
  jsStrToNumber (jsTrim s.data)

/-- Coercion of a possibly-undefined value (`undefined` coerces to NaN). -/
def optToNumber : Option (List Char) → JSNum
  | none => .nan
  | some l => jsStrToNumber (jsTrim l)

/-- The `split(',')` of a JavaScript string, over its character list. -/
def splitComma : List Char → List (List Char)
  | [] => [[]]
  | c :: r =>
    if c = ',' then [] :: splitComma r
    else
      match splitComma r with
      | h :: t => (c :: h) :: t
      | [] => [[c]]

/-! ### Schedule normalizer (`transformCustomTimes`) -/

/-- One entry of the owner-supplied `customTimes` map: the `{in, out}`
clock times of one weekday, in minutes since midnight. -/
structure TimeEntry where
  inTime : Nat
  outTime : Nat
deriving DecidableEq

/-- One open window on one weekday, as produced by the normalizer. -/
structure AvailabilitySlot where
  day : String
  fromTime : Nat
  toTime : Nat
deriving DecidableEq

/-- The canonical day list `daysOfWeek` of the controller. -/
def daysOfWeek : List String :=
  ["Monday", "Tuesday", "Wednesday", "Thursday", "Friday", "Saturday", "Sunday"]

/-- JavaScript `toLowerCase` restricted to ASCII, enough for the day names. -/
def jsToLowerCase (s : String) : String :=
  ⟨s.data.map Char.toLower⟩

/-- Loop body of `transformCustomTimes`: the slot pushed for `day`, if the
map has a (truthy) entry under the lowercased day name. -/
def slotFor (customTimes : String → Option TimeEntry) (day : String) :
    Option AvailabilitySlot :=
  (customTimes (jsToLowerCase day)).map fun t =>
    { day := day, fromTime := t.inTime, toTime := t.outTime }

/-- The schedule normalizer: walk the canonical `daysOfWeek` in order and
push one slot per day present in the map (`forEach` + conditional `push`,
rendered as `filterMap`). -/
def transformCustomTimes (customTimes : String → Option TimeEntry) :
    List AvailabilitySlot :=
  daysOfWeek.filterMap (slotFor customTimes)

/-! ### Timestamps and the availability matcher -/

/-- Minutes since the Unix epoch. -/
abbrev Timestamp := Nat

/-- Calendar day number of a timestamp (day 0 = January 1 1970). -/
def dayNumber (t : Timestamp) : Nat := t / 1440

/-- Time of day of a timestamp, in minutes since midnight
(`toTimeString().slice(0, 5)`). -/
def timeOfDay (t : Timestamp) : Nat := t % 1440

/-- Weekday name of a timestamp
(`toLocaleString('en-US', { weekday: 'long' })`); day 0 is a Thursday. -/
def weekdayName (t : Timestamp) : String :=
  daysOfWeek.getD ((dayNumber t + 3) % 7) ""

/-- A stored parking-space record, restricted to the fields the search
reads: GeoJSON `[lng, lat]` coordinates, the `availableFrom` date, the
`isAvailable` flag and the normalized `daysAvailable` table. -/
structure ParkingSpaceRecord where
  coordinates : ℚ × ℚ
  availableFrom : Timestamp
  isAvailable : Bool
  daysAvailable : List AvailabilitySlot
deriving DecidableEq

/-- Body of the `daysAvailable.some(...)` callback: the slot matches when
its day equals the query weekday and the reservation window's times of day
lie inside the slot's window. -/
def slotMatches (slot : AvailabilitySlot) (tIn tOut : Timestamp) : Bool :=
  if slot.day = weekdayName tIn then
    decide (slot.fromTime ≤ timeOfDay tIn) && decide (timeOfDay tOut ≤ slot.toTime)
  else false

/-- The availability matcher: the per-record filter predicate of
`findNearbyParkingSpaces`. -/
def availabilityMatch (r : ParkingSpaceRecord) (tIn tOut : Timestamp) : Bool :=
  r.daysAvailable.any fun slot => slotMatches slot tIn tOut

/-! ### The search endpoint -/

/-- Outcome of the search endpoint: a `400` error payload or the `200`
result list. -/
inductive SearchOutcome where
  | badRequest (error : String)
  | ok (spaces : List ParkingSpaceRecord)
deriving DecidableEq

/-- Modelled from the spec: the `ParkingSpace` Mongoose model and MongoDB's
`$geoWithin`/`$centerSphere` evaluation are not part of the provided
sources.  Per the spec's store-query interface, the store returns exactly
the records passing the spherical-cap predicate (abstracted here as the
parameter `geoWithin`, applied to the query center, the radius in radians
and the stored coordinate), the `availableFrom <= requestedStart` bound and
the `isAvailable = true` flag, in store order. -/
def storeFind (geoWithin : JSNum × JSNum → ℚ → ℚ × ℚ → Bool)
    (db : List ParkingSpaceRecord) (center : JSNum × JSNum) (radius : ℚ)
    (requestedStart : Timestamp) : List ParkingSpaceRecord :=
  db.filter fun r =>
    geoWithin center radius r.coordinates &&
      decide (r.availableFrom ≤ requestedStart) && r.isAvailable

/-- The availability-filter stage of the search: keep the candidates the
matcher accepts, in candidate order. -/
def matchFilter (candidates : List ParkingSpaceRecord) (tIn tOut : Timestamp) :
    List ParkingSpaceRecord :=
  candidates.filter fun r => availabilityMatch r tIn tOut

/-- The `findNearbyParkingSpaces` endpoint.  `geoWithin` abstracts the
store's geo predicate and `parseDate` the JavaScript `Date` parser (both
external; `none` is an `Invalid Date`).  `location`, `timeIn`, `timeOut`
are the raw query-string parameters (`none` = absent).  The JavaScript
falsiness test `!location` rejects both an absent and an empty string;
array destructuring takes the first two components of `split(',')` and
drops the rest. -/
def findNearbyParkingSpaces (geoWithin : JSNum × JSNum → ℚ → ℚ × ℚ → Bool)
    (parseDate : String → Option Timestamp) (db : List ParkingSpaceRecord)
    (location timeIn timeOut : Option String) : SearchOutcome :=
  match location with
  | none => .badRequest "Location is required"
  | some loc =>
    if loc = "" then .badRequest "Location is required"
    else
      let parts := splitComma loc.data
      let lat := optToNumber parts[0]?
      let lng := optToNumber parts[1]?
      if jsIsNaN lat || jsIsNaN lng then .badRequest "Invalid location format"
      else
        match timeIn.bind parseDate, timeOut.bind parseDate with
        | some tIn, some tOut =>
          .ok (matchFilter (storeFind geoWithin db (lng, lat) (5 / 6378.1) tIn) tIn tOut)
        | _, _ => .badRequest "Invalid date format"

/-! ### Concrete fixtures used by witnesses and counterexamples

Minute arithmetic: day 4 (January 5 1970) is a Monday, day 5 a Tuesday and
day 12 (January 13 1970) a Tuesday; `4 * 1440 + 600 = 6360` is Monday
10:00, `6480` Monday 12:00, `6240` Monday 08:00, `6840` Monday 18:00,
`7680` Tuesday 08:00, `7800` Tuesday 10:00 and `18000` is day 12 at
12:00. -/

/-- The slot `Monday 09:00-17:00` of the spec examples. -/
def mondaySlot : AvailabilitySlot := ⟨"Monday", 540, 1020⟩

/-- A record whose weekly availability is just `mondaySlot`. -/
def mondayRecord : ParkingSpaceRecord := ⟨(0, 0), 0, true, [mondaySlot]⟩

/-- A degenerate slot with `fromTime = toTime` (Monday 10:00-10:00). -/
def eqSlot : AvailabilitySlot := ⟨"Monday", 600, 600⟩

/-- A record carrying only `eqSlot`. -/
def eqSlotRecord : ParkingSpaceRecord := ⟨(0, 0), 0, true, [eqSlot]⟩

/-- An inverted slot with `fromTime > toTime` (Monday 17:00-09:00). -/
def invSlot : AvailabilitySlot := ⟨"Monday", 1020, 540⟩

/-- A record carrying only `invSlot`. -/
def invSlotRecord : ParkingSpaceRecord := ⟨(0, 0), 0, true, [invSlot]⟩

/-- A geo predicate that accepts every coordinate, for concrete runs. -/
def geoAll : JSNum × JSNum → ℚ → ℚ × ℚ → Bool := fun _ _ _ => true

/-- A concrete date parser: `"start"` is Monday 10:00, `"end"` Monday
12:00, anything else an Invalid Date. -/
def pdDemo : String → Option Timestamp :=
  fun s => if s = "start" then some 6360 else if s = "end" then some 6480 else none

/-- A one-record store for concrete runs. -/
def demoDb : List ParkingSpaceRecord := [mondayRecord]

/-- A schedule map with only the key `"monday"`, for concrete runs. -/
def mondayTimes : String → Option TimeEntry :=
  fun s => if s = "monday" then some ⟨540, 1020⟩ else none

/-! ### Helper lemmas -/

/-- Membership in the store query result unfolds to the three query
constraints. -/
theorem mem_storeFind {geoW : JSNum × JSNum → ℚ → ℚ × ℚ → Bool}
    {db : List ParkingSpaceRecord} {c : JSNum × JSNum} {radius : ℚ}
    {t : Timestamp} {r : ParkingSpaceRecord} :
    r ∈ storeFind geoW db c radius t ↔
      r ∈ db ∧ geoW c radius r.coordinates = true ∧
        r.availableFrom ≤ t ∧ r.isAvailable = true := by
  simp [storeFind, List.mem_filter, Bool.and_eq_true, decide_eq_true_eq,
    and_assoc]

/-- The slot produced for a day carries that day. -/
theorem slotFor_day {ct : String → Option TimeEntry} {day : String}
    {s : AvailabilitySlot} (h : slotFor ct day = some s) : s.day = day := by
  unfold slotFor at h
  cases hc : ct (jsToLowerCase day) with
  | none => rw [hc] at h; simp at h
  | some t => rw [hc] at h; simp at h; rw [← h]

/-- The days of the slots produced from any day list form a subsequence of
that list (hence they appear in list order, each at most as often as in the
list). -/
theorem days_sublist (ct : String → Option TimeEntry) :
    ∀ l : List String,
      ((l.filterMap (slotFor ct)).map AvailabilitySlot.day).Sublist l := by
  intro l
  induction l with
  | nil => simp
  | cons d l ih =>
    rw [List.filterMap_cons]
    cases h : slotFor ct d with
    | none => exact List.Sublist.cons d ih
    | some s =>
      rw [List.map_cons, slotFor_day h]
      exact List.Sublist.cons₂ d ih

/-- Days not in the input list contribute no slot. -/
theorem filter_day_not_mem (ct : String → Option TimeEntry) {d : String} :
    ∀ l : List String, d ∉ l →
      (l.filterMap (slotFor ct)).filter (fun s => s.day = d) = [] := by
  intro l
  induction l with
  | nil => intro _; simp
  | cons e l ih =>
    intro hd
    have hne : e ≠ d := fun h => hd (h ▸ List.mem_cons_self e l)
    have hdl : d ∉ l := fun h => hd (List.mem_cons_of_mem e h)
    rw [List.filterMap_cons]
    cases h : slotFor ct e with
    | none => exact ih hdl
    | some s =>
      rw [List.filter_cons]
      have : (decide (s.day = d)) = false := by
        simp [slotFor_day h, hne]
      rw [this]
      simp only [Bool.false_eq_true, if_false]
      exact ih hdl

/-- For a day occurring exactly once in the input list, the produced slots
with that day are exactly the one the map induces. -/
theorem filter_day_mem (ct : String → Option TimeEntry) {d : String} :
    ∀ l : List String, l.Nodup → d ∈ l →
      (l.filterMap (slotFor ct)).filter (fun s => s.day = d) =
        (slotFor ct d).toList := by
  intro l
  induction l with
  | nil => intro _ h; simp at h
  | cons e l ih =>
    intro hnd hd
    have hnd' := List.nodup_cons.mp hnd
    rw [List.filterMap_cons]
    rcases List.mem_cons.mp hd with he | hl
    · subst he
      cases h : slotFor ct d with
      | none =>
        rw [Option.toList_none]
        exact filter_day_not_mem ct l hnd'.1
      | some s =>
        rw [List.filter_cons]
        have : (decide (s.day = d)) = true := by simp [slotFor_day h]
        rw [this]
        simp only [if_true]
        rw [Option.toList_some, filter_day_not_mem ct l hnd'.1]
    · have hne : e ≠ d := fun h => hnd'.1 (h ▸ hl)
      cases h : slotFor ct e with
      | none => exact ih hnd'.2 hl
      | some s =>
        rw [List.filter_cons]
        have : (decide (s.day = d)) = false := by simp [slotFor_day h, hne]
        rw [this]
        simp only [Bool.false_eq_true, if_false]
        exact ih hnd'.2 hl

/-- Normal-form of a successful search: with a nonempty location string
whose first two comma components pass the `isNaN` checks and two parseable
timestamps, the endpoint returns the matcher-filtered store query. -/
theorem findNearby_ok (geoW : JSNum × JSNum → ℚ → ℚ × ℚ → Bool)
    (pd : String → Option Timestamp) (db : List ParkingSpaceRecord)
    {l : String} {tin tout : Option String} {tIn tOut : Timestamp}
    (h0 : l ≠ "")
    (h1 : jsIsNaN (optToNumber (splitComma l.data)[0]?) = false)
    (h2 : jsIsNaN (optToNumber (splitComma l.data)[1]?) = false)
    (h3 : tin.bind pd = some tIn) (h4 : tout.bind pd = some tOut) :
    findNearbyParkingSpaces geoW pd db (some l) tin tout =
      .ok (matchFilter
        (storeFind geoW db
          (optToNumber (splitComma l.data)[1]?, optToNumber (splitComma l.data)[0]?)
          (5 / 6378.1) tIn) tIn tOut) := by
  simp only [findNearbyParkingSpaces]
  rw [if_neg h0, h1, h2, h3, h4]
  simp

/-- Inversion of a successful search: a `200` outcome forces the validated
shape and determines the result list. -/
theorem findNearby_ok_inv {geoW : JSNum × JSNum → ℚ → ℚ × ℚ → Bool}
    {pd : String → Option Timestamp} {db : List ParkingSpaceRecord}
    {loc tin tout : Option String} {res : List ParkingSpaceRecord}
    (h : findNearbyParkingSpaces geoW pd db loc tin tout = .ok res) :
    ∃ l tIn tOut, loc = some l ∧ tin.bind pd = some tIn ∧
      tout.bind pd = some tOut ∧
      res = matchFilter
        (storeFind geoW db
          (optToNumber (splitComma l.data)[1]?, optToNumber (splitComma l.data)[0]?)
          (5 / 6378.1) tIn) tIn tOut := by
  cases loc with
  | none => simp [findNearbyParkingSpaces] at h
  | some l =>
    simp only [findNearbyParkingSpaces] at h
    by_cases h0 : l = ""
    · rw [if_pos h0] at h; cases h
    · rw [if_neg h0] at h
      by_cases h12 : (jsIsNaN (optToNumber (splitComma l.data)[0]?) ||
          jsIsNaN (optToNumber (splitComma l.data)[1]?)) = true
      · simp only [h12, if_true] at h
        cases h
      · simp only [h12] at h
        simp only [Bool.not_eq_true] at h12
        cases htin : tin.bind pd with
        | none => rw [htin] at h; cases h
        | some tIn =>
          cases htout : tout.bind pd with
          | none => rw [htin, htout] at h; cases h
          | some tOut =>
            rw [htin, htout] at h
            simp only [Bool.false_eq_true, if_false, SearchOutcome.ok.injEq] at h
            exact ⟨l, tIn, tOut, rfl, rfl, rfl, h.symm⟩

/-! ### The claims -/

/-- C1: the Availability Matcher retains a record iff some slot of its
weekly availability carries the weekday name of the requested start and
contains the requested window's times of day; with the slot Monday
09:00-17:00, a Monday 10:00-12:00 query matches, one starting 08:00 does
not, one ending 18:00 does not, and a Tuesday 10:00-12:00 query does not
match even though Monday's slot would satisfy the time comparison. -/
theorem availabilityMatch_spec :
    (∀ (r : ParkingSpaceRecord) (tIn tOut : Timestamp),
      availabilityMatch r tIn tOut = true ↔
        ∃ slot ∈ r.daysAvailable, slot.day = weekdayName tIn ∧
          slot.fromTime ≤ timeOfDay tIn ∧ timeOfDay tOut ≤ slot.toTime) ∧
    availabilityMatch mondayRecord 6360 6480 = true ∧
    availabilityMatch mondayRecord 6240 6480 = false ∧
    availabilityMatch mondayRecord 6360 6840 = false ∧
    availabilityMatch mondayRecord 7800 7920 = false := by
  refine ⟨?_, by decide, by decide, by decide, by decide⟩
  intro r tIn tOut
  simp only [availabilityMatch, List.any_eq_true]
  constructor
  · rintro ⟨slot, hmem, hs⟩
    by_cases hd : slot.day = weekdayName tIn
    · rw [slotMatches, if_pos hd] at hs
      simp only [Bool.and_eq_true, decide_eq_true_eq] at hs
      exact ⟨slot, hmem, hd, hs.1, hs.2⟩
    · rw [slotMatches, if_neg hd] at hs
      exact absurd hs (by simp)
  · rintro ⟨slot, hmem, hd, h1, h2⟩
    refine ⟨slot, hmem, ?_⟩
    rw [slotMatches, if_pos hd]
    simp [h1, h2]

/-- Witness for C1: the matcher accepts the record at the Monday
10:00-12:00 query, through the characterization. -/
theorem availabilityMatch_spec_witness :
    availabilityMatch mondayRecord 6360 6480 = true :=
  (availabilityMatch_spec.1 mondayRecord 6360 6480).mpr
    ⟨mondaySlot, by decide, by decide, by decide, by decide⟩

/-- C4 counterexample: a slot with `fromTime >= toTime` can be matched.
The degenerate slot Monday 10:00-10:00 matches the Monday 10:00-10:00
query, and the inverted slot Monday 17:00-09:00 matches the overnight
query Monday 18:00 to Tuesday 08:00. -/
theorem inverted_slot_counterexample :
    (eqSlot.toTime ≤ eqSlot.fromTime ∧
      availabilityMatch eqSlotRecord 6360 6360 = true) ∧
    (invSlot.toTime < invSlot.fromTime ∧
      availabilityMatch invSlotRecord 6840 7680 = true) := by decide

/-- C4 (amended): a slot with `fromTime` strictly greater than `toTime` is
never matched by a query whose start time of day is at most its end time
of day, and a record all of whose slots are so inverted is never retained
for such a query. -/
theorem inverted_slot_never_matches :
    ∀ tIn tOut : Timestamp, timeOfDay tIn ≤ timeOfDay tOut →
      (∀ slot : AvailabilitySlot, slot.toTime < slot.fromTime →
        slotMatches slot tIn tOut = false) ∧
      (∀ r : ParkingSpaceRecord,
        (∀ slot ∈ r.daysAvailable, slot.toTime < slot.fromTime) →
        availabilityMatch r tIn tOut = false) := by
  intro tIn tOut hord
  have key : ∀ slot : AvailabilitySlot, slot.toTime < slot.fromTime →
      slotMatches slot tIn tOut = false := by
    intro slot hinv
    rw [slotMatches]
    by_cases hd : slot.day = weekdayName tIn
    · rw [if_pos hd]
      cases hA : decide (slot.fromTime ≤ timeOfDay tIn) with
      | false => simp [hA]
      | true =>
        cases hB : decide (timeOfDay tOut ≤ slot.toTime) with
        | false => simp [hA, hB]
        | true =>
          exfalso
          have hA' := of_decide_eq_true hA
          have hB' := of_decide_eq_true hB
          omega
    · rw [if_neg hd]
  refine ⟨key, ?_⟩
  intro r hall
  rw [availabilityMatch, List.any_eq_false]
  intro slot hs
  simp [key slot (hall slot hs)]

/-- Witness for the amended C4: the inverted slot Monday 17:00-09:00 does
not match the Monday 10:00-12:00 query, and a record carrying only it is
not retained. -/
theorem inverted_slot_never_matches_witness :
    slotMatches invSlot 6360 6480 = false ∧
    availabilityMatch invSlotRecord 6360 6480 = false := by
  have h := inverted_slot_never_matches 6360 6480 (by decide)
  exact ⟨h.1 invSlot (by decide), h.2 invSlotRecord (by decide)⟩

/-- C6: a query whose end falls on a different calendar date than its
start can still match, because only clock times are compared: Monday
January 5 1970 10:00 to Tuesday January 13 1970 12:00 matches the slot
Monday 09:00-17:00 although the two timestamps are eight days apart. -/
theorem cross_date_match_exists :
    availabilityMatch mondayRecord 6360 18000 = true ∧
    dayNumber 18000 ≠ dayNumber 6360 := by decide

/-- C3: for every schedule map, each canonical weekday whose lowercase
name is present in the map yields exactly one slot carrying that day and
the entry's in/out times, absent days yield no slot, and the emitted slots
are ordered by the canonical Monday-Sunday day order (their day sequence
is a subsequence of `daysOfWeek`). -/
theorem transformCustomTimes_spec :
    ∀ ct : String → Option TimeEntry,
      (∀ d ∈ daysOfWeek, ∀ t : TimeEntry, ct (jsToLowerCase d) = some t →
        (transformCustomTimes ct).filter (fun s => s.day = d) =
          [⟨d, t.inTime, t.outTime⟩]) ∧
      (∀ d ∈ daysOfWeek, ct (jsToLowerCase d) = none →
        (transformCustomTimes ct).filter (fun s => s.day = d) = []) ∧
      ((transformCustomTimes ct).map AvailabilitySlot.day).Sublist daysOfWeek := by
  intro ct
  have hnd : daysOfWeek.Nodup := by decide
  refine ⟨?_, ?_, days_sublist ct daysOfWeek⟩
  · intro d hd t ht
    rw [transformCustomTimes, filter_day_mem ct daysOfWeek hnd hd, slotFor, ht]
    rfl
  · intro d hd ht
    rw [transformCustomTimes, filter_day_mem ct daysOfWeek hnd hd, slotFor, ht]
    rfl

/-- Witness for C3: the map containing only `"monday"` normalizes to
exactly one Monday slot with its times and no Tuesday slot. -/
theorem transformCustomTimes_spec_witness :
    (transformCustomTimes mondayTimes).filter (fun s => s.day = "Monday") =
      [⟨"Monday", 540, 1020⟩] ∧
    (transformCustomTimes mondayTimes).filter (fun s => s.day = "Tuesday") = [] :=
  ⟨(transformCustomTimes_spec mondayTimes).1 "Monday" (by decide) ⟨540, 1020⟩
      (by decide),
   (transformCustomTimes_spec mondayTimes).2.1 "Tuesday" (by decide) (by decide)⟩

/-- C8: the normalized table carries at most one slot per day string and
at most seven slots in total. -/
theorem at_most_one_slot_per_day :
    ∀ (ct : String → Option TimeEntry) (d : String),
      ((transformCustomTimes ct).filter (fun s => s.day = d)).length ≤ 1 ∧
      (transformCustomTimes ct).length ≤ 7 := by
  intro ct d
  constructor
  · by_cases hd : d ∈ daysOfWeek
    · rw [transformCustomTimes, filter_day_mem ct daysOfWeek (by decide) hd]
      cases slotFor ct d <;> simp
    · rw [transformCustomTimes, filter_day_not_mem ct daysOfWeek hd]
      simp
  · have h := (days_sublist ct daysOfWeek).length_le
    rw [List.length_map] at h
    exact h

/-- C9: the Schedule Normalizer is a deterministic pure function of its
input: pointwise equal schedule maps normalize to identical slot
sequences. -/
theorem transform_deterministic :
    ∀ ct₁ ct₂ : String → Option TimeEntry, (∀ s, ct₁ s = ct₂ s) →
      transformCustomTimes ct₁ = transformCustomTimes ct₂ := by
  intro ct₁ ct₂ h
  rw [funext h]

/-- Witness for C9: normalizing the Monday-only map twice gives the same
sequence. -/
theorem transform_deterministic_witness :
    transformCustomTimes mondayTimes = transformCustomTimes mondayTimes :=
  transform_deterministic mondayTimes mondayTimes fun _ => rfl

/-- C2: the candidate set requested from the store is constrained exactly
by the spherical-cap geo predicate at radius `5 / 6378.1` radians centered
at the query origin, the `availableFrom <= requestedStart` bound and
`isAvailable = true`; hence a record with `isAvailable = false`, or with
`availableFrom` after the requested start, never reaches a search
result. -/
theorem geoFilter_constraints :
    (∀ (geoW : JSNum × JSNum → ℚ → ℚ × ℚ → Bool)
        (db : List ParkingSpaceRecord) (c : JSNum × JSNum) (t : Timestamp)
        (r : ParkingSpaceRecord),
      r ∈ storeFind geoW db c (5 / 6378.1) t ↔
        r ∈ db ∧ geoW c (5 / 6378.1) r.coordinates = true ∧
          r.availableFrom ≤ t ∧ r.isAvailable = true) ∧
    (∀ geoW pd db loc tin tout tIn res r,
      tin.bind pd = some tIn →
      findNearbyParkingSpaces geoW pd db loc tin tout = .ok res →
      r ∈ res →
      r.isAvailable = true ∧ r.availableFrom ≤ tIn ∧
        geoW (optToNumber (splitComma (loc.getD "").data)[1]?,
              optToNumber (splitComma (loc.getD "").data)[0]?)
          (5 / 6378.1) r.coordinates = true) := by
  refine ⟨fun _ _ _ _ _ => mem_storeFind, ?_⟩
  intro geoW pd db loc tin tout tIn res r htin hok hr
  obtain ⟨l, tIn', tOut', hloc, htin', htout', hres⟩ := findNearby_ok_inv hok
  rw [htin] at htin'
  injection htin' with h
  subst h
  subst hloc
  subst hres
  have hmem : r ∈ storeFind geoW db
      (optToNumber (splitComma l.data)[1]?, optToNumber (splitComma l.data)[0]?)
      (5 / 6378.1) tIn := (List.mem_filter.mp hr).1
  have hc := mem_storeFind.mp hmem
  simpa using ⟨hc.2.2.2, hc.2.2.1, hc.2.1⟩

/-- Witness for C2: in a concrete validated run, the returned record is
available, opened before the requested start, and inside the queried
spherical cap. -/
theorem geoFilter_constraints_witness :
    mondayRecord.isAvailable = true ∧ mondayRecord.availableFrom ≤ 6360 ∧
      geoAll (optToNumber (splitComma (((some "1,2" : Option String)).getD "").data)[1]?,
              optToNumber (splitComma (((some "1,2" : Option String)).getD "").data)[0]?)
        (5 / 6378.1) mondayRecord.coordinates = true :=
  geoFilter_constraints.2 geoAll pdDemo demoDb (some "1,2") (some "start")
    (some "end") 6360 demoDb mondayRecord rfl rfl (by decide)

/-- C5 counterexample: the origin `"Infinity,12.3"` does not consist of
two finite numbers, yet the search does not signal a malformed-input
error: the store is queried and a `200` result is returned, because the
`isNaN` check accepts `Infinity`. -/
theorem origin_infinity_counterexample :
    jsToNumber "Infinity" = JSNum.posInf ∧
    findNearbyParkingSpaces geoAll pdDemo demoDb (some "Infinity,12.3")
      (some "start") (some "end") = .ok demoDb :=
  ⟨rfl, rfl⟩

/-- C5 (amended): the search rejects, before any store query, a missing or
empty origin, an origin one of whose first two comma components coerces to
NaN, and unparsable timestamps; in particular origin `"abc,12.3"` yields
the malformed-input error.  (Numeric but non-finite coordinates such as
`Infinity` pass the check; see the counterexample.) -/
theorem malformed_input_rejected :
    (∀ geoW pd db tin tout,
      findNearbyParkingSpaces geoW pd db none tin tout =
        .badRequest "Location is required") ∧
    (∀ geoW pd db tin tout,
      findNearbyParkingSpaces geoW pd db (some "") tin tout =
        .badRequest "Location is required") ∧
    (∀ geoW pd db (l : String) tin tout, l ≠ "" →
      (jsIsNaN (optToNumber (splitComma l.data)[0]?) = true ∨
        jsIsNaN (optToNumber (splitComma l.data)[1]?) = true) →
      findNearbyParkingSpaces geoW pd db (some l) tin tout =
        .badRequest "Invalid location format") ∧
    (∀ geoW pd db (l : String) tin tout, l ≠ "" →
      jsIsNaN (optToNumber (splitComma l.data)[0]?) = false →
      jsIsNaN (optToNumber (splitComma l.data)[1]?) = false →
      (tin.bind pd = none ∨ tout.bind pd = none) →
      findNearbyParkingSpaces geoW pd db (some l) tin tout =
        .badRequest "Invalid date format") ∧
    (∀ geoW pd db tin tout,
      findNearbyParkingSpaces geoW pd db (some "abc,12.3") tin tout =
        .badRequest "Invalid location format") := by
  refine ⟨fun _ _ _ _ _ => rfl, fun _ _ _ _ _ => rfl, ?_, ?_, fun _ _ _ _ _ => rfl⟩
  · intro geoW pd db l tin tout h0 h12
    simp only [findNearbyParkingSpaces]
    rw [if_neg h0]
    rcases h12 with h | h <;> rw [h] <;> simp
  · intro geoW pd db l tin tout h0 h1 h2 hd
    simp only [findNearbyParkingSpaces]
    rw [if_neg h0, h1, h2]
    simp only [Bool.or_self, Bool.false_eq_true, if_false]
    rcases hd with h | h
    · rw [h]
    · cases htin : tin.bind pd with
      | none => rfl
      | some tIn => rw [h]

/-- Witness for the amended C5: the spec's example origin and an
unparsable timestamp each produce the corresponding error. -/
theorem malformed_input_rejected_witness :
    findNearbyParkingSpaces geoAll pdDemo demoDb (some "abc,12.3")
      (some "start") (some "end") = .badRequest "Invalid location format" ∧
    findNearbyParkingSpaces geoAll pdDemo demoDb (some "1,2")
      (some "oops") (some "end") = .badRequest "Invalid date format" :=
  ⟨malformed_input_rejected.2.2.2.2 geoAll pdDemo demoDb (some "start") (some "end"),
   malformed_input_rejected.2.2.2.1 geoAll pdDemo demoDb "1,2" (some "oops")
     (some "end") (by decide) rfl rfl (Or.inl rfl)⟩

/-- C7: the search result is exactly the matcher-passing subsequence of
the store's candidates, in store order: the filter stage of the search is
a sublist of its input whose membership is characterized by the matcher,
and every successful search returns exactly that filter of the store
query. -/
theorem result_preserves_store_order :
    (∀ (cands : List ParkingSpaceRecord) (tIn tOut : Timestamp),
      (matchFilter cands tIn tOut).Sublist cands ∧
      ∀ r, r ∈ matchFilter cands tIn tOut ↔
        r ∈ cands ∧ availabilityMatch r tIn tOut = true) ∧
    (∀ geoW pd db loc tin tout res,
      findNearbyParkingSpaces geoW pd db loc tin tout = .ok res →
      ∃ tIn tOut, tin.bind pd = some tIn ∧ tout.bind pd = some tOut ∧
        res = matchFilter
          (storeFind geoW db
            (optToNumber (splitComma (loc.getD "").data)[1]?,
             optToNumber (splitComma (loc.getD "").data)[0]?)
            (5 / 6378.1) tIn) tIn tOut) := by
  constructor
  · intro cands tIn tOut
    exact ⟨List.filter_sublist _,
      fun r => by simp [matchFilter, List.mem_filter]⟩
  · intro geoW pd db loc tin tout res hok
    obtain ⟨l, tIn, tOut, hloc, htin, htout, hres⟩ := findNearby_ok_inv hok
    subst hloc
    exact ⟨tIn, tOut, htin, htout, by simpa using hres⟩

/-- Witness for C7: the filter stage on the demo store is a sublist with
the matcher as membership criterion, and a concrete successful search
returns exactly the filtered store query. -/
theorem result_preserves_store_order_witness :
    (matchFilter demoDb 6360 6480).Sublist demoDb ∧
    (mondayRecord ∈ matchFilter demoDb 6360 6480 ↔
      mondayRecord ∈ demoDb ∧ availabilityMatch mondayRecord 6360 6480 = true) ∧
    (∃ tIn tOut, ((some "start" : Option String)).bind pdDemo = some tIn ∧
      ((some "end" : Option String)).bind pdDemo = some tOut ∧
      demoDb = matchFilter
        (storeFind geoAll demoDb
          (optToNumber (splitComma (((some "1,2" : Option String)).getD "").data)[1]?,
           optToNumber (splitComma (((some "1,2" : Option String)).getD "").data)[0]?)
          (5 / 6378.1) tIn) tIn tOut) :=
  ⟨(result_preserves_store_order.1 demoDb 6360 6480).1,
   (result_preserves_store_order.1 demoDb 6360 6480).2 mondayRecord,
   result_preserves_store_order.2 geoAll pdDemo demoDb (some "1,2")
     (some "start") (some "end") demoDb rfl⟩

/-- C10 counterexample: the origin `",abc"` contains a comma and its first
component is empty, yet the search rejects it rather than querying the
store, because the second component coerces to NaN: an empty component
does not by itself make the coordinate validation accept the origin. -/
theorem empty_component_counterexample :
    (splitComma ",abc".data)[0]? = some [] ∧
    findNearbyParkingSpaces geoAll pdDemo demoDb (some ",abc")
      (some "start") (some "end") = .badRequest "Invalid location format" :=
  ⟨rfl, rfl⟩

/-- C10 (amended): an origin containing a comma with an empty first or
second component is accepted whenever the other of the first two
components is also empty or coerces to a number: the empty component
coerces to the number `0` and passes the `isNaN` check, the store is
queried with the coerced first two components as `(lng, lat)`, and
components after the second are silently discarded. -/
theorem empty_component_accepted :
    jsToNumber "" = JSNum.num 0 ∧
    (∀ geoW pd db (l : String) tin tout tIn tOut,
      l ≠ "" →
      jsIsNaN (optToNumber (splitComma l.data)[0]?) = false →
      jsIsNaN (optToNumber (splitComma l.data)[1]?) = false →
      tin.bind pd = some tIn → tout.bind pd = some tOut →
      findNearbyParkingSpaces geoW pd db (some l) tin tout =
        .ok (matchFilter (storeFind geoW db
          (optToNumber (splitComma l.data)[1]?, optToNumber (splitComma l.data)[0]?)
          (5 / 6378.1) tIn) tIn tOut)) ∧
    findNearbyParkingSpaces geoAll pdDemo demoDb (some ",12.3")
      (some "start") (some "end") = .ok demoDb ∧
    findNearbyParkingSpaces geoAll pdDemo demoDb (some "12.3,")
      (some "start") (some "end") = .ok demoDb ∧
    findNearbyParkingSpaces geoAll pdDemo demoDb (some "1,2,zzz")
      (some "start") (some "end") = .ok demoDb := by
  refine ⟨rfl, ?_, rfl, rfl, rfl⟩
  intro geoW pd db l tin tout tIn tOut h0 h1 h2 h3 h4
  exact findNearby_ok geoW pd db h0 h1 h2 h3 h4

/-- Witness for the amended C10: the origin `",12.3"` with an empty first
component is accepted and the store queried with the coerced coordinate. -/
theorem empty_component_accepted_witness :
    findNearbyParkingSpaces geoAll pdDemo demoDb (some ",12.3")
      (some "start") (some "end") =
      .ok (matchFilter (storeFind geoAll demoDb
        (optToNumber (splitComma ",12.3".data)[1]?,
         optToNumber (splitComma ",12.3".data)[0]?)
        (5 / 6378.1) 6360) 6360 6480) :=
  empty_component_accepted.2.1 geoAll pdDemo demoDb ",12.3" (some "start")
    (some "end") 6360 6480 (by decide) rfl rfl rfl rfl

end SpotShare
